import Mathlib

/-
Shallow embedding of the DistributedFileSystem repository
(controller file/node services in src/controller/services.py and
src/controller/main.py, storage-node agent in src/storage_node/agent.py,
ORM model in src/controller/database.py), together with theorems checking
the natural-language specification against it.

Modelling conventions:
  * bytes are lists of naturals (`Bytes`);
  * `datetime.utcnow()` is an abstract tick passed in as `now : Nat`;
  * the SHA-256 hex digest is an abstract parameter `hash : Bytes → String`
    (no claim depends on properties of the digest itself);
  * the outcome of an HTTP call to a storage node is an oracle keyed by the
    node url (`storeOk`, `reach`, `delOk` : String → Bool), matching the
    try/except boundaries in `_store_file_on_node`,
    `_retrieve_file_from_node` and `_delete_file_from_node`;
  * the bytes physically held by the storage nodes are an association list
    `NodeStores` keyed by (node url, file id) — the agent's
    `save_file_locally` / `load_file_locally` pair on each node;
  * every controller operation also returns the ordered list of externally
    visible events it performed (`Event`), so that ordering claims
    (fail-fast, logical-delete-before-physical-delete) are statable.
  * database state (`Catalog`) returned by an operation is the committed
    state: `delete_file` commits once, after its fan-out, exactly where
    `db.commit()` sits in the source.
-/

namespace DFS

abbrev Bytes := List Nat

/-- Row of the `files` table (class FileMetadata in database.py). The
`updated_at` column carries `onupdate=datetime.utcnow` and a Postgres
trigger refreshing it on every UPDATE. -/
structure FileRec where
  file_id : String
  filename : String
  size : Nat
  checksum : String
  created_at : Nat
  updated_at : Nat
  is_deleted : Bool
deriving Repr, DecidableEq

/-- Row of the `storage_nodes` table (class StorageNode in database.py). -/
structure StorageNodeRec where
  node_id : String
  url : String
  capacity : Int
  used_space : Int
  is_active : Bool
  last_heartbeat : Nat
deriving Repr, DecidableEq

/-- Row of the `file_locations` table (class FileLocation in database.py);
the surrogate integer key is irrelevant to the claims. -/
structure FileLocation where
  file_id : String
  node_id : String
deriving Repr, DecidableEq

/-- Committed controller database state. -/
structure Catalog where
  files : List FileRec
  locations : List FileLocation
  nodes : List StorageNodeRec
deriving Repr, DecidableEq

/-- Bytes held on the storage nodes, keyed by (node url, file id). An entry
stands for the payload written by StorageAgent.save_file_locally on the
node serving that url. -/
structure NodeStores where
  entries : List (String × String × Bytes)
deriving Repr, DecidableEq

def NodeStores.lookup (s : NodeStores) (url fid : String) : Option Bytes :=
  (s.entries.find? (fun e => e.1 = url ∧ e.2.1 = fid)).map (fun e => e.2.2)

def NodeStores.put (s : NodeStores) (url fid : String) (content : Bytes) :
    NodeStores :=
  ⟨(url, fid, content) ::
    s.entries.filter (fun e => ¬(e.1 = url ∧ e.2.1 = fid))⟩

def NodeStores.remove (s : NodeStores) (url fid : String) : NodeStores :=
  ⟨s.entries.filter (fun e => ¬(e.1 = url ∧ e.2.1 = fid))⟩

/-- Externally visible actions of a controller operation, in program
order. `sessionSetDeleted` is the in-transaction assignment
`file_metadata.is_deleted = True`; `dbCommit` is `db.commit()`. -/
inductive Event where
  | storeCall (url fid : String)
  | deleteCall (url fid : String)
  | sessionSetDeleted (fid : String)
  | dbCommit
deriving Repr, DecidableEq

/-- FileService.num_replicas, hardcoded to 2 in FileService.__init__. -/
def num_replicas : Nat := 2

/-- NodeService.get_active_nodes: all rows with is_active true, in the
order the query returns them (registry order). -/
def get_active_nodes (db : Catalog) : List StorageNodeRec :=
  db.nodes.filter (fun n => n.is_active)

/-- The store loop of FileService.store_file: for each target node call
`_store_file_on_node(node.url, file_id, content)`; on success the node
holds the bytes and its node_id joins `successful_stores`; a failure is
logged and skipped. -/
def fanoutStore (storeOk : String → Bool) (fid : String) (content : Bytes) :
    List StorageNodeRec → NodeStores → List String × NodeStores × List Event
  | [], st => ([], st, [])
  | n :: rest, st =>
      let hit := storeOk n.url
      let st1 := if hit then st.put n.url fid content else st
      let r := fanoutStore storeOk fid content rest st1
      ((if hit then [n.node_id] else []) ++ r.1, r.2.1,
        Event.storeCall n.url fid :: r.2.2)

/-- FileService.store_file. Returns the service result (node-id list and
checksum, or the raised exception message), the node-store state, the
committed catalog, and the event trace. -/
def store_file (hash : Bytes → String) (storeOk : String → Bool) (now : Nat)
    (st : NodeStores) (db : Catalog) (file_id filename : String)
    (content : Bytes) :
    Except String (List String × String) × NodeStores × Catalog ×
      List Event :=
  let file_hash := hash content
  let content_size := content.length
  let nodes_available := get_active_nodes db
  if nodes_available.length < num_replicas then
    (Except.error ("Need " ++ toString num_replicas ++
        " nodes but only have " ++ toString nodes_available.length),
      st, db, [])
  else
    let target_nodes := nodes_available.take num_replicas
    let fan := fanoutStore storeOk file_id content target_nodes st
    let successful_stores := fan.1
    if successful_stores.isEmpty then
      (Except.error "Couldn't store file anywhere!", fan.2.1, db, fan.2.2)
    else
      let file_record : FileRec :=
        ⟨file_id, filename, content_size, file_hash, now, now, false⟩
      let db1 : Catalog :=
        { db with
            files := db.files ++ [file_record],
            locations := db.locations ++
              successful_stores.map (fun nid => ⟨file_id, nid⟩) }
      (Except.ok (successful_stores, file_hash), fan.2.1, db1,
        fan.2.2 ++ [Event.dbCommit])

/-- Result value of FileService.retrieve_file on success. -/
structure RetrieveResult where
  filename : String
  content : Bytes
  size : Nat
  checksum : String
deriving Repr, DecidableEq

/-- The `storage_node` query inside the retrieve/delete loops: first row
with the given node_id and is_active true. -/
def findActiveNode (db : Catalog) (nid : String) : Option StorageNodeRec :=
  db.nodes.find? (fun n => n.node_id = nid ∧ n.is_active)

/-- The location loop of FileService.retrieve_file: for each location,
look up an active node row; if found, fetch from the node
(`_retrieve_file_from_node` yields the body on HTTP 200, None otherwise);
the `if content:` truthiness test accepts only a non-empty body, anything
else falls through to the next location. -/
def tryLocations (reach : String → Bool) (st : NodeStores) (db : Catalog)
    (fi : FileRec) : List FileLocation → Option RetrieveResult
  | [] => none
  | loc :: rest =>
      match findActiveNode db loc.node_id with
      | none => tryLocations reach st db fi rest
      | some n =>
          match (if reach n.url then st.lookup n.url fi.file_id else none)
          with
          | some content =>
              if content.isEmpty then tryLocations reach st db fi rest
              else some ⟨fi.filename, content, fi.size, fi.checksum⟩
          | none => tryLocations reach st db fi rest

/-- FileService.retrieve_file: look up the non-deleted file row, then its
locations, then try each location in listed order. -/
def retrieve_file (reach : String → Bool) (st : NodeStores) (db : Catalog)
    (file_id : String) : Option RetrieveResult :=
  match db.files.find? (fun f => f.file_id = file_id ∧ f.is_deleted = false)
  with
  | none => none
  | some file_info =>
      let storage_locations :=
        db.locations.filter (fun l => l.file_id = file_id)
      if storage_locations.isEmpty then none
      else tryLocations reach st db file_info storage_locations

/-- The delete loop of FileService.delete_file: for each location of the
file, look up an active node row; if found, call
`_delete_file_from_node(node.url, file_id)`; on success the node drops the
bytes and the node_id joins `deleted_nodes`; locations whose node is
missing or inactive get no call at all. -/
def fanoutDelete (delOk : String → Bool) (db : Catalog) (fid : String) :
    List FileLocation → NodeStores → List String × NodeStores × List Event
  | [], st => ([], st, [])
  | loc :: rest, st =>
      match findActiveNode db loc.node_id with
      | none => fanoutDelete delOk db fid rest st
      | some n =>
          let ok := delOk n.url
          let st1 := if ok then st.remove n.url fid else st
          let r := fanoutDelete delOk db fid rest st1
          ((if ok then [loc.node_id] else []) ++ r.1, r.2.1,
            Event.deleteCall n.url fid :: r.2.2)

/-- The UPDATE applied to the `files` table when `is_deleted = True` is
flushed at commit: the matching rows get the flag, and their `updated_at`
is refreshed by the ORM `onupdate` hook and the
`update_files_updated_at` trigger. -/
def setDeleted (now : Nat) (fid : String) (files : List FileRec) :
    List FileRec :=
  files.map (fun f =>
    if f.file_id = fid then { f with is_deleted := true, updated_at := now }
    else f)

/-- FileService.delete_file: find the file row (deleted or not), set the
soft-delete flag in the session, fan best-effort deletes out to the
active placements, then commit. The returned catalog is the committed
state; the trace shows the commit happening after the fan-out. -/
def delete_file (delOk : String → Bool) (now : Nat) (st : NodeStores)
    (db : Catalog) (file_id : String) :
    Except String (List String) × NodeStores × Catalog × List Event :=
  match db.files.find? (fun f => f.file_id = file_id) with
  | none => (Except.error "File not found", st, db, [])
  | some _ =>
      let file_locations :=
        db.locations.filter (fun l => l.file_id = file_id)
      let fan := fanoutDelete delOk db file_id file_locations st
      let db1 : Catalog :=
        { db with files := setDeleted now file_id db.files }
      (Except.ok fan.1, fan.2.1, db1,
        Event.sessionSetDeleted file_id :: fan.2.2 ++ [Event.dbCommit])

/-- Entry shape returned by FileService.list_files. -/
structure FileListEntry where
  file_id : String
  filename : String
  size : Nat
  created_at : Nat
  checksum : String
deriving Repr, DecidableEq

/-- FileService.list_files: all rows with is_deleted false, projected to
the listing fields. -/
def list_files (db : Catalog) : List FileListEntry :=
  (db.files.filter (fun f => f.is_deleted = false)).map
    (fun f => ⟨f.file_id, f.filename, f.size, f.created_at, f.checksum⟩)

/-- Minimal HTTP response shape for the controller endpoints. -/
structure HttpResponse where
  status : Nat
  body : List (String × String)
deriving Repr, DecidableEq

/-- NodeService.update_node_heartbeat: if a row with the node_id exists,
refresh last_heartbeat and set is_active, commit and return True;
otherwise return False without touching the table. -/
def update_node_heartbeat (now : Nat) (db : Catalog) (node_id : String) :
    Bool × Catalog :=
  match db.nodes.find? (fun n => n.node_id = node_id) with
  | some _ =>
      (true,
        { db with nodes := db.nodes.map (fun n =>
            if n.node_id = node_id then
              { n with last_heartbeat := now, is_active := true }
            else n) })
  | none => (false, db)

/-- POST /nodes/heartbeat (node_heartbeat in main.py): 400 when node_id is
absent from the body, 404 when update_node_heartbeat reports failure, 200
otherwise. -/
def node_heartbeat (now : Nat) (db : Catalog) (node_id : Option String) :
    HttpResponse × Catalog :=
  match node_id with
  | none => (⟨400, [("detail", "node_id required")]⟩, db)
  | some nid =>
      let r := update_node_heartbeat now db nid
      if r.1 then
        (⟨200, [("status", "heartbeat_received"), ("node_id", nid)]⟩, r.2)
      else (⟨404, [("detail", "Node not found")]⟩, db)

/-- NodeService.register_node: idempotent upsert; `dbOk` is the outcome of
the commit — on a database error the transaction is rolled back and the
method returns False. -/
def register_node (dbOk : Bool) (now : Nat) (db : Catalog)
    (node_id url : String) (capacity : Int) : Bool × Catalog :=
  let db1 :=
    match db.nodes.find? (fun n => n.node_id = node_id) with
    | some _ =>
        { db with nodes := db.nodes.map (fun n =>
            if n.node_id = node_id then
              { n with url := url, capacity := capacity, is_active := true,
                       last_heartbeat := now }
            else n) }
    | none =>
        { db with nodes := db.nodes ++ [⟨node_id, url, capacity, 0, true, now⟩] }
  if dbOk then (true, db1) else (false, db)

/-- POST /nodes/register (register_storage_node in main.py): calls
register_node, ignores its boolean result, and always answers
status "registered". -/
def register_storage_node (dbOk : Bool) (now : Nat) (db : Catalog)
    (node_id url : String) (capacity : Int) : HttpResponse × Catalog :=
  let r := register_node dbOk now db node_id url capacity
  (⟨200, [("status", "registered"), ("node_id", node_id)]⟩, r.2)

/-- In-memory metrics dict of StorageAgent. Response times are modelled as
rationals. -/
structure AgentMetrics where
  upload_ops_count : Nat
  download_ops_count : Nat
  delete_ops_count : Nat
  response_times : List ℚ
deriving Repr, DecidableEq

/-- The if/elif chain at the top of StorageAgent.record_operation,
bumping the per-operation-type counter. -/
def bumpCounters (m : AgentMetrics) (operation_type : String) :
    AgentMetrics :=
  if operation_type = "upload" then
    { m with upload_ops_count := m.upload_ops_count + 1 }
  else if operation_type = "download" then
    { m with download_ops_count := m.download_ops_count + 1 }
  else if operation_type = "delete" then
    { m with delete_ops_count := m.delete_ops_count + 1 }
  else m

/-- StorageAgent.record_operation: bump the per-type counter; append the
sample when positive; when the list exceeds 100 entries keep only the
last 100 (`self.metrics["response_times"][-100:]`). -/
def record_operation (m : AgentMetrics) (operation_type : String)
    (response_time_ms : ℚ) : AgentMetrics :=
  let m1 := bumpCounters m operation_type
  if response_time_ms > 0 then
    let ts := m1.response_times ++ [response_time_ms]
    if ts.length > 100 then
      { m1 with response_times := ts.drop (ts.length - 100) }
    else { m1 with response_times := ts }
  else m1

/-- The avg_response_time_ms field computed by
StorageAgent.get_current_metrics: 0.0 on an empty window, else the sum of
the window divided by its length. -/
def avg_response_time_ms (m : AgentMetrics) : ℚ :=
  if m.response_times.isEmpty then 0
  else m.response_times.sum / m.response_times.length

/-- The last `n` elements of a list (Python's `l[-n:]`). -/
def lastN (n : Nat) (l : List α) : List α := l.drop (l.length - n)

/-- Python exception carrying an HTTP status (fastapi.HTTPException).
Its str() form is "status: detail". -/
structure PyHttpError where
  status : Nat
  detail : String
deriving Repr, DecidableEq

def PyHttpError.str (e : PyHttpError) : String :=
  toString e.status ++ ": " ++ e.detail

/-- Local content of one storage node for the agent-side model: file id to
bytes. -/
abbrev LocalStore := List (String × Bytes)

/-- The body of the `try` block of StorageAgent.load_file_locally: raise
HTTPException(404) when the path does not exist, else return the bytes. -/
def load_file_locally_try (store : LocalStore) (file_id : String) :
    Except PyHttpError Bytes :=
  match store.find? (fun e => e.1 = file_id) with
  | none => Except.error ⟨404, "File not found"⟩
  | some e => Except.ok e.2

/-- StorageAgent.load_file_locally: the `except Exception` clause catches
every exception raised in the body — including the HTTPException(404) the
body itself raises, since HTTPException subclasses Exception — and
re-raises it as HTTPException(500, "Error loading file: ..."). -/
def load_file_locally (store : LocalStore) (file_id : String) :
    Except PyHttpError Bytes :=
  match load_file_locally_try store file_id with
  | Except.ok b => Except.ok b
  | Except.error ex =>
      Except.error ⟨500, "Error loading file: " ++ ex.str⟩

/-- GET /retrieve/{file_id} on the node agent
(retrieve_file_endpoint in agent.py): propagate any HTTPException from
load_file_locally unchanged, else answer 200 with the bytes. -/
def retrieve_file_endpoint (store : LocalStore) (file_id : String) :
    Except PyHttpError Bytes :=
  match load_file_locally store file_id with
  | Except.ok b => Except.ok b
  | Except.error ex => Except.error ex

/-- Insertion of one element into a list sorted by `le` (stable). -/
def insertBy (le : α → α → Bool) (a : α) : List α → List α
  | [] => [a]
  | b :: bs => if le a b then a :: b :: bs else b :: insertBy le a bs

/-- Stable insertion sort by `le`. -/
def sortBy (le : α → α → Bool) : List α → List α
  | [] => []
  | a :: as => insertBy le a (sortBy le as)

/-- Modelled from the spec (section 4.4), for comparison with the code:
"select the first N active nodes by a deterministic policy — the
reference behavior favors nodes with more available capacity, tie-broken
by lower average response time (best-first)". `rt` supplies the average
response time of a node (the storage_nodes table itself has no such
column). -/
def specBestFirstTargets (rt : String → ℚ) (db : Catalog) :
    List StorageNodeRec :=
  (sortBy (fun a b =>
      let availA := a.capacity - a.used_space
      let availB := b.capacity - b.used_space
      if availA > availB then true
      else if availA = availB then decide (rt a.node_id ≤ rt b.node_id)
      else false)
    (get_active_nodes db)).take num_replicas

/-- The urls that received a store call, in order, read off a trace. -/
def storeCallUrls (tr : List Event) : List String :=
  tr.filterMap (fun e =>
    match e with
    | Event.storeCall u _ => some u
    | _ => none)

/-- The urls that received a delete call, in order, read off a trace. -/
def deleteCallUrls (tr : List Event) : List String :=
  tr.filterMap (fun e =>
    match e with
    | Event.deleteCall u _ => some u
    | _ => none)

/-- Whether a commit event appears strictly before the first delete call
of a trace (true would mean the soft-delete is durably visible before any
remote cleanup starts). -/
def commitBeforeFirstDeleteCall : List Event → Bool
  | [] => false
  | Event.dbCommit :: _ => true
  | Event.deleteCall _ _ :: _ => false
  | _ :: rest => commitBeforeFirstDeleteCall rest

instance {ε α : Type} [DecidableEq ε] [DecidableEq α] :
    DecidableEq (Except ε α) := fun a b =>
  match a, b with
  | Except.ok x, Except.ok y =>
      if h : x = y then isTrue (congrArg Except.ok h)
      else isFalse (fun hc => h (Except.ok.inj hc))
  | Except.ok _, Except.error _ => isFalse (fun hc => Except.noConfusion hc)
  | Except.error _, Except.ok _ => isFalse (fun hc => Except.noConfusion hc)
  | Except.error x, Except.error y =>
      if h : x = y then isTrue (congrArg Except.error h)
      else isFalse (fun hc => h (Except.error.inj hc))

/-- What one iteration of the retrieve loop yields for a single location:
none when the location's node is missing/inactive, unreachable, lacks the
payload, or serves an empty body; otherwise the assembled result. Used to
characterize `tryLocations`. -/
def hitValue (reach : String → Bool) (st : NodeStores) (db : Catalog)
    (fi : FileRec) (loc : FileLocation) : Option RetrieveResult :=
  match findActiveNode db loc.node_id with
  | none => none
  | some n =>
      match (if reach n.url then st.lookup n.url fi.file_id else none) with
      | some content =>
          if content.isEmpty then none
          else some ⟨fi.filename, content, fi.size, fi.checksum⟩
      | none => none

/-- Fixture: active node with the least available capacity (10 − 9). -/
def nodeA : StorageNodeRec := ⟨"A", "uA", 10, 9, true, 0⟩

/-- Fixture: active node with middling available capacity (10 − 5). -/
def nodeB : StorageNodeRec := ⟨"B", "uB", 10, 5, true, 0⟩

/-- Fixture: active node with the most available capacity (10 − 1). -/
def nodeC : StorageNodeRec := ⟨"C", "uC", 10, 1, true, 0⟩

/-- Fixture: an inactive node. -/
def nodeD : StorageNodeRec := ⟨"D", "uD", 10, 0, false, 0⟩

/-- Fixture: empty catalog whose registry lists A, B, C in that order. -/
def registryABC : Catalog := ⟨[], [], [nodeA, nodeB, nodeC]⟩

/-- Fixture: a stored file row. -/
def fileOne : FileRec := ⟨"f1", "t.txt", 1, "h1", 0, 0, false⟩

/-- Fixture: catalog holding fileOne placed on active node A and inactive
node D. -/
def catalogDelete : Catalog :=
  ⟨[fileOne], [⟨"f1", "A"⟩, ⟨"f1", "D"⟩], [nodeA, nodeD]⟩

/-- Fixture: node stores where node A holds the payload of fileOne. -/
def storesDelete : NodeStores := ⟨[("uA", "f1", [9])]⟩

/-! ### Helper lemmas -/

theorem find?_map_of_preserved {α : Type} (g : α → α) (p : α → Bool)
    (hp : ∀ x, p (g x) = p x) :
    ∀ l : List α, List.find? p (l.map g) = (List.find? p l).map g := by
  intro l
  induction l with
  | nil => rfl
  | cons a l ih =>
      by_cases h : p a = true
      · simp [List.find?_cons, hp, h]
      · simp only [Bool.not_eq_true] at h
        simp [List.find?_cons, hp, h, ih]

theorem find?_eq_none_of_all {α : Type} (p : α → Bool) (l : List α)
    (h : ∀ x ∈ l, p x = false) : List.find? p l = none := by
  rw [List.find?_eq_none]
  intro x hx
  simp [h x hx]

theorem find?_filter_of_imp {α : Type} (p q : α → Bool) (l : List α)
    (h : ∀ e, p e = true → q e = true) :
    List.find? p (l.filter q) = List.find? p l := by
  induction l with
  | nil => rfl
  | cons a l ih =>
      by_cases hq : q a = true
      · rw [List.filter_cons_of_pos hq]
        by_cases hp : p a = true
        · rw [List.find?_cons_of_pos _ hp, List.find?_cons_of_pos _ hp]
        · rw [List.find?_cons_of_neg _ (by simpa using hp),
            List.find?_cons_of_neg _ (by simpa using hp), ih]
      · have hp : ¬ p a = true := fun hpa => hq (h a hpa)
        rw [List.filter_cons_of_neg (by simpa using hq),
          List.find?_cons_of_neg _ (by simpa using hp), ih]

theorem find?_append_of_none {α : Type} (p : α → Bool) (l1 l2 : List α)
    (h : List.find? p l1 = none) :
    List.find? p (l1 ++ l2) = List.find? p l2 := by
  induction l1 with
  | nil => rfl
  | cons a l ih =>
      by_cases hp : p a = true
      · rw [List.find?_cons_of_pos _ hp] at h
        exact absurd h (by simp)
      · rw [List.find?_cons_of_neg _ (by simpa using hp)] at h
        rw [List.cons_append,
          List.find?_cons_of_neg _ (by simpa using hp), ih h]

theorem lookup_put_same (s : NodeStores) (u fid : String) (c : Bytes) :
    (s.put u fid c).lookup u fid = some c := by
  simp only [NodeStores.put, NodeStores.lookup]
  rw [List.find?_cons_of_pos _ (by simp)]
  rfl

theorem lookup_put_other (s : NodeStores) (u v fid : String) (c : Bytes)
    (h : v ≠ u) : (s.put u fid c).lookup v fid = s.lookup v fid := by
  have hne : ¬ u = v := fun hc => h hc.symm
  simp only [NodeStores.put, NodeStores.lookup]
  rw [List.find?_cons_of_neg _ (by simp [hne]), find?_filter_of_imp]
  intro e he
  simp only [decide_eq_true_eq] at he ⊢
  intro hc
  exact h (he.1.symm.trans hc.1)

theorem fanoutStore_succ (storeOk : String → Bool) (fid : String)
    (content : Bytes) :
    ∀ (ns : List StorageNodeRec) (st : NodeStores),
      (fanoutStore storeOk fid content ns st).1
        = (ns.filter (fun n => storeOk n.url)).map (fun n => n.node_id) := by
  intro ns
  induction ns with
  | nil => intro st; rfl
  | cons n rest ih =>
      intro st
      simp only [fanoutStore]
      by_cases h : storeOk n.url
      · simp [h, ih]
      · simp [h, ih]

theorem fanoutStore_trace (storeOk : String → Bool) (fid : String)
    (content : Bytes) :
    ∀ (ns : List StorageNodeRec) (st : NodeStores),
      (fanoutStore storeOk fid content ns st).2.2
        = ns.map (fun n => Event.storeCall n.url fid) := by
  intro ns
  induction ns with
  | nil => intro st; rfl
  | cons n rest ih =>
      intro st
      simp only [fanoutStore, List.map_cons]
      rw [ih]

theorem fanoutStore_lookup (storeOk : String → Bool) (fid : String)
    (content : Bytes) :
    ∀ (ns : List StorageNodeRec) (st : NodeStores) (u : String),
      (fanoutStore storeOk fid content ns st).2.1.lookup u fid
        = if ns.any (fun n => decide (n.url = u) && storeOk n.url)
          then some content else st.lookup u fid := by
  intro ns
  induction ns with
  | nil => intro st u; simp [fanoutStore]
  | cons n rest ih =>
      intro st u
      simp only [fanoutStore, List.any_cons]
      rw [ih]
      by_cases hrest :
          rest.any (fun m => decide (m.url = u) && storeOk m.url) = true
      · simp [hrest]
      · have hrest0 :
            rest.any (fun m => decide (m.url = u) && storeOk m.url)
              = false := by simpa using hrest
        simp only [hrest0, Bool.or_false]
        rw [if_neg (by simp : ¬(false = true))]
        by_cases hok : storeOk n.url = true
        · by_cases hu : n.url = u
          · subst hu
            have hhead : (decide (n.url = n.url) && storeOk n.url) = true :=
              by simp [hok]
            rw [if_pos hok, if_pos hhead, lookup_put_same]
          · have hhead : ¬((decide (n.url = u) && storeOk n.url) = true) :=
              by simp [hu]
            rw [if_pos hok, if_neg hhead,
              lookup_put_other _ _ _ _ _ (fun hc => hu hc.symm)]
        · have hhead : ¬((decide (n.url = u) && storeOk n.url) = true) :=
            by simp [hok]
          rw [if_neg hok, if_neg hhead]

theorem storeCallUrls_map_nodes (ns : List StorageNodeRec) (fid : String) :
    storeCallUrls (ns.map (fun n => Event.storeCall n.url fid))
      = ns.map (fun n => n.url) := by
  induction ns with
  | nil => rfl
  | cons n rest ih =>
      simp only [List.map_cons, storeCallUrls, List.filterMap_cons]
      rw [← storeCallUrls, ih]

theorem storeCallUrls_append_commit (tr : List Event) :
    storeCallUrls (tr ++ [Event.dbCommit]) = storeCallUrls tr := by
  simp [storeCallUrls]

theorem tryLocations_cons (reach : String → Bool) (st : NodeStores)
    (db : Catalog) (fi : FileRec) (loc : FileLocation)
    (rest : List FileLocation) :
    tryLocations reach st db fi (loc :: rest)
      = match hitValue reach st db fi loc with
        | some r => some r
        | none => tryLocations reach st db fi rest := by
  cases hfind : findActiveNode db loc.node_id with
  | none => simp [tryLocations, hitValue, hfind]
  | some n =>
      cases hc : (if reach n.url then st.lookup n.url fi.file_id else none)
      with
      | none => simp [tryLocations, hitValue, hfind, hc]
      | some content =>
          by_cases hemp : content.isEmpty
          · simp [tryLocations, hitValue, hfind, hc, hemp]
          · simp [tryLocations, hitValue, hfind, hc, hemp]

theorem tryLocations_first_hit (reach : String → Bool) (st : NodeStores)
    (db : Catalog) (fi : FileRec) (r : RetrieveResult) :
    ∀ locs : List FileLocation,
      (∀ loc ∈ locs, hitValue reach st db fi loc = none ∨
        hitValue reach st db fi loc = some r) →
      (∃ loc ∈ locs, hitValue reach st db fi loc = some r) →
      tryLocations reach st db fi locs = some r := by
  intro locs
  induction locs with
  | nil =>
      intro _ hex
      obtain ⟨l, hl, _⟩ := hex
      cases hl
  | cons loc rest ih =>
      intro hall hex
      rw [tryLocations_cons]
      cases hh : hitValue reach st db fi loc with
      | some v =>
          have hv := hall loc (by simp)
          rw [hh] at hv
          rcases hv with hv | hv
          · cases hv
          · simpa using hv
      | none =>
          simp only []
          apply ih
          · intro l hl
            exact hall l (by simp [hl])
          · obtain ⟨l, hl, hval⟩ := hex
            rcases List.mem_cons.mp hl with rfl | hl2
            · rw [hh] at hval
              cases hval
            · exact ⟨l, hl2, hval⟩

theorem find?_active_nodup (l : List StorageNodeRec) (n : StorageNodeRec)
    (hnodup : (l.map (fun x => x.node_id)).Nodup) (hmem : n ∈ l)
    (hact : n.is_active = true) :
    l.find? (fun x => x.node_id = n.node_id ∧ x.is_active) = some n := by
  induction l with
  | nil => cases hmem
  | cons m rest ih =>
      rw [List.map_cons, List.nodup_cons] at hnodup
      rcases List.mem_cons.mp hmem with rfl | hmem2
      · rw [List.find?_cons_of_pos _ (by simp [hact])]
      · have hmne : ¬(m.node_id = n.node_id ∧ m.is_active = true) := by
          intro hc
          exact hnodup.1 (List.mem_map.mpr ⟨n, hmem2, hc.1.symm⟩)
        rw [List.find?_cons_of_neg _ (by simpa using hmne)]
        exact ih hnodup.2 hmem2

/-- The full shape of `store_file` when enough active nodes exist and at
least one target store call succeeds. -/
theorem store_file_ok_shape
    (hash : Bytes → String) (storeOk : String → Bool) (now : Nat)
    (st : NodeStores) (db : Catalog) (fid fn : String) (content : Bytes)
    (hlen : num_replicas ≤ (get_active_nodes db).length)
    (hsucc : ∃ n ∈ (get_active_nodes db).take num_replicas,
      storeOk n.url = true) :
    store_file hash storeOk now st db fid fn content
      = (Except.ok
          ((((get_active_nodes db).take num_replicas).filter
              (fun n => storeOk n.url)).map (fun n => n.node_id),
            hash content),
         (fanoutStore storeOk fid content
           ((get_active_nodes db).take num_replicas) st).2.1,
         { db with
             files := db.files ++
               [⟨fid, fn, content.length, hash content, now, now, false⟩],
             locations := db.locations ++
               ((((get_active_nodes db).take num_replicas).filter
                   (fun n => storeOk n.url)).map (fun n => n.node_id)).map
                 (fun nid => ⟨fid, nid⟩) },
         (fanoutStore storeOk fid content
           ((get_active_nodes db).take num_replicas) st).2.2
           ++ [Event.dbCommit]) := by
  have hne : (((get_active_nodes db).take num_replicas).filter
      (fun n => storeOk n.url)).map (fun n => n.node_id) ≠ [] := by
    obtain ⟨n, hn, hok⟩ := hsucc
    intro hc
    rw [List.map_eq_nil_iff, List.filter_eq_nil_iff] at hc
    exact (hc n hn) (by simp [hok])
  have hemp : ¬(((fanoutStore storeOk fid content
      ((get_active_nodes db).take num_replicas) st).1).isEmpty = true) := by
    rw [fanoutStore_succ, List.isEmpty_iff]
    exact hne
  simp only [store_file]
  rw [if_neg (by omega : ¬((get_active_nodes db).length < num_replicas)),
    if_neg hemp, fanoutStore_succ]

theorem fanoutDelete_cleaned (delOk : String → Bool) (db : Catalog)
    (fid : String) :
    ∀ (locs : List FileLocation) (st : NodeStores),
      (fanoutDelete delOk db fid locs st).1
        = (locs.filter (fun loc =>
            match findActiveNode db loc.node_id with
            | some n => delOk n.url
            | none => false)).map (fun loc => loc.node_id) := by
  intro locs
  induction locs with
  | nil => intro st; rfl
  | cons loc rest ih =>
      intro st
      cases hfind : findActiveNode db loc.node_id with
      | none => simp [fanoutDelete, hfind, ih]
      | some n =>
          by_cases hok : delOk n.url = true
          · simp [fanoutDelete, hfind, hok, ih]
          · simp [fanoutDelete, hfind, hok, ih,
              Bool.not_eq_true _ ▸ hok]

theorem fanoutDelete_trace (delOk : String → Bool) (db : Catalog)
    (fid : String) :
    ∀ (locs : List FileLocation) (st : NodeStores),
      (fanoutDelete delOk db fid locs st).2.2
        = locs.filterMap (fun loc => (findActiveNode db loc.node_id).map
            (fun n => Event.deleteCall n.url fid)) := by
  intro locs
  induction locs with
  | nil => intro st; rfl
  | cons loc rest ih =>
      intro st
      cases hfind : findActiveNode db loc.node_id with
      | none => simp [fanoutDelete, hfind, ih, List.filterMap_cons]
      | some n => simp [fanoutDelete, hfind, ih, List.filterMap_cons]

/-- The full shape of `delete_file` when the file row exists. -/
theorem delete_file_found_shape (delOk : String → Bool) (now : Nat)
    (st : NodeStores) (db : Catalog) (fid : String) (r : FileRec)
    (hfind : db.files.find? (fun f => f.file_id = fid) = some r) :
    delete_file delOk now st db fid
      = (Except.ok (fanoutDelete delOk db fid
            (db.locations.filter (fun l => l.file_id = fid)) st).1,
         (fanoutDelete delOk db fid
            (db.locations.filter (fun l => l.file_id = fid)) st).2.1,
         { db with files := setDeleted now fid db.files },
         Event.sessionSetDeleted fid ::
           (fanoutDelete delOk db fid
              (db.locations.filter (fun l => l.file_id = fid)) st).2.2
             ++ [Event.dbCommit]) := by
  simp only [delete_file]
  rw [hfind]

/-- Unfolding of `retrieve_file` when the non-deleted row is found and at
least one location exists. -/
theorem retrieve_file_found (reach : String → Bool) (st : NodeStores)
    (db : Catalog) (fid : String) (fi : FileRec)
    (hfind : db.files.find?
        (fun f => f.file_id = fid ∧ f.is_deleted = false) = some fi)
    (hne : db.locations.filter (fun l => l.file_id = fid) ≠ []) :
    retrieve_file reach st db fid
      = tryLocations reach st db fi
          (db.locations.filter (fun l => l.file_id = fid)) := by
  simp only [retrieve_file, hfind]
  rw [if_neg (fun hc => hne (List.isEmpty_iff.mp hc))]

/-! ### Claim C1 -/

/-- Claim C1: with enough active nodes, if at least one target node's
store call succeeds then store_file returns exactly the node ids whose
store succeeded (with the checksum), commits exactly one FileRecord for
the upload and exactly one PlacementRecord per returned node id and no
other placement; if every target node's store call fails, store_file
raises a hard failure and commits no FileRecord and no
PlacementRecord. -/
theorem store_file_partial_success_commits
    (hash : Bytes → String) (storeOk : String → Bool) (now : Nat)
    (st : NodeStores) (db : Catalog) (fid fn : String) (content : Bytes)
    (hlen : num_replicas ≤ (get_active_nodes db).length) :
    ((∃ n ∈ (get_active_nodes db).take num_replicas, storeOk n.url = true) →
        (store_file hash storeOk now st db fid fn content).1
            = Except.ok
                ((((get_active_nodes db).take num_replicas).filter
                    (fun n => storeOk n.url)).map (fun n => n.node_id),
                  hash content)
          ∧ (store_file hash storeOk now st db fid fn content).2.2.1.files
              = db.files ++
                [⟨fid, fn, content.length, hash content, now, now, false⟩]
          ∧ (store_file hash storeOk now st db fid fn
                content).2.2.1.locations
              = db.locations ++
                ((((get_active_nodes db).take num_replicas).filter
                    (fun n => storeOk n.url)).map (fun n => n.node_id)).map
                  (fun nid => ⟨fid, nid⟩)) ∧
      ((∀ n ∈ (get_active_nodes db).take num_replicas,
          storeOk n.url = false) →
        (store_file hash storeOk now st db fid fn content).1
            = Except.error "Couldn't store file anywhere!"
          ∧ (store_file hash storeOk now st db fid fn content).2.2.1
              = db) := by
  constructor
  · intro hsucc
    have hne : (((get_active_nodes db).take num_replicas).filter
        (fun n => storeOk n.url)).map (fun n => n.node_id) ≠ [] := by
      obtain ⟨n, hn, hok⟩ := hsucc
      intro hc
      rw [List.map_eq_nil_iff, List.filter_eq_nil_iff] at hc
      exact (hc n hn) (by simp [hok])
    have hemp : ¬(((fanoutStore storeOk fid content
        ((get_active_nodes db).take num_replicas) st).1).isEmpty = true) := by
      rw [fanoutStore_succ, List.isEmpty_iff]
      exact hne
    simp only [store_file]
    rw [if_neg (by omega : ¬((get_active_nodes db).length < num_replicas)),
      if_neg hemp]
    refine ⟨?_, ?_, ?_⟩ <;> simp [fanoutStore_succ]
  · intro hfail
    have hnil : ((get_active_nodes db).take num_replicas).filter
        (fun n => storeOk n.url) = [] :=
      List.filter_eq_nil_iff.mpr (fun a ha => by simp [hfail a ha])
    have hemp : ((fanoutStore storeOk fid content
        ((get_active_nodes db).take num_replicas) st).1).isEmpty = true := by
      rw [fanoutStore_succ, hnil]
      rfl
    simp only [store_file]
    rw [if_neg (by omega : ¬((get_active_nodes db).length < num_replicas)),
      if_pos hemp]
    exact ⟨rfl, rfl⟩

/-- Concrete instance of claim C1: three active nodes; with only node A
accepting the write the upload succeeds reporting ["A"]; with every node
refusing, the upload fails and the catalog is unchanged. -/
theorem store_file_partial_success_commits_witness :
    ((store_file (fun b => toString b.length) (fun u => decide (u = "uA")) 3
        ⟨[]⟩ registryABC "f1" "t.txt" [7]).1 = Except.ok (["A"], "1")) ∧
      ((store_file (fun b => toString b.length) (fun _ => false) 3 ⟨[]⟩
          registryABC "f1" "t.txt" [7]).1
        = Except.error "Couldn't store file anywhere!") ∧
      ((store_file (fun b => toString b.length) (fun _ => false) 3 ⟨[]⟩
          registryABC "f1" "t.txt" [7]).2.2.1 = registryABC) := by
  refine ⟨?_, ?_, ?_⟩
  · have h := (store_file_partial_success_commits
        (fun b => toString b.length) (fun u => decide (u = "uA")) 3 ⟨[]⟩
        registryABC "f1" "t.txt" [7] (by decide)).1
        ⟨nodeA, by decide, by decide⟩
    exact h.1.trans (by decide)
  · exact ((store_file_partial_success_commits
        (fun b => toString b.length) (fun _ => false) 3 ⟨[]⟩
        registryABC "f1" "t.txt" [7] (by decide)).2 (fun n _ => rfl)).1
  · exact ((store_file_partial_success_commits
        (fun b => toString b.length) (fun _ => false) 3 ⟨[]⟩
        registryABC "f1" "t.txt" [7] (by decide)).2 (fun n _ => rfl)).2

/-! ### Claim C2 -/

/-- Claim C2: when strictly fewer active nodes exist than the replication
factor (2), store_file fails with the insufficient-replicas error, issues
no store call to any node (empty event trace, node stores untouched), and
leaves the catalog unchanged: no FileRecord and no PlacementRecord is
created. -/
theorem store_file_insufficient_nodes_fails_fast
    (hash : Bytes → String) (storeOk : String → Bool) (now : Nat)
    (st : NodeStores) (db : Catalog) (fid fn : String) (content : Bytes)
    (h : (get_active_nodes db).length < num_replicas) :
    (store_file hash storeOk now st db fid fn content).1
        = Except.error ("Need " ++ toString num_replicas ++
            " nodes but only have " ++
            toString (get_active_nodes db).length) ∧
      (store_file hash storeOk now st db fid fn content).2.1 = st ∧
      (store_file hash storeOk now st db fid fn content).2.2.1 = db ∧
      (store_file hash storeOk now st db fid fn content).2.2.2 = [] := by
  unfold store_file
  simp [if_pos h]

/-- Concrete instance of claim C2: one active node out of two required. -/
theorem store_file_insufficient_nodes_fails_fast_witness :
    (get_active_nodes ⟨[], [], [⟨"A", "uA", 10, 0, true, 0⟩]⟩).length
        < num_replicas ∧
      (store_file (fun b => toString b.length) (fun _ => true) 3 ⟨[]⟩
          ⟨[], [], [⟨"A", "uA", 10, 0, true, 0⟩]⟩ "f1" "t.txt" [1, 2]).2.2.1
        = ⟨[], [], [⟨"A", "uA", 10, 0, true, 0⟩]⟩ :=
  ⟨by decide,
    (store_file_insufficient_nodes_fails_fast (fun b => toString b.length)
      (fun _ => true) 3 ⟨[]⟩ ⟨[], [], [⟨"A", "uA", 10, 0, true, 0⟩]⟩
      "f1" "t.txt" [1, 2] (by decide)).2.2.1⟩

/-! ### Claim C8 -/

/-- Claim C8 (code bug): on the node agent, retrieving a file id with no
locally stored payload is answered with status 500, not 404: the
HTTPException(404) raised inside load_file_locally is caught by that
method's own blanket `except Exception` and re-raised as
HTTPException(500). Evaluated at the failing input: an empty local store
and the file id "missing-file". -/
theorem agent_retrieve_missing_returns_500 :
    retrieve_file_endpoint [] "missing-file"
        = Except.error ⟨500, "Error loading file: 404: File not found"⟩ ∧
      (match retrieve_file_endpoint [] "missing-file" with
        | Except.error e => e.status
        | Except.ok _ => 0) = 500 := by
  decide

/-! ### Claim C3 -/

/-- Claim C3 counterexample: uploading the EMPTY byte string succeeds
(both target nodes accept and the catalog commits the records), yet
retrieving the file id immediately afterwards — every node active and
reachable — returns not-found instead of the empty content: the
`if content:` truthiness test in the retrieve loop treats an empty body
as a miss, so the round-trip fails for C = []. -/
theorem roundtrip_empty_content_not_found :
    (store_file (fun b => toString b.length) (fun _ => true) 3 ⟨[]⟩
        registryABC "f1" "t.txt" []).1 = Except.ok (["A", "B"], "0") ∧
      retrieve_file (fun _ => true)
          (store_file (fun b => toString b.length) (fun _ => true) 3 ⟨[]⟩
            registryABC "f1" "t.txt" []).2.1
          (store_file (fun b => toString b.length) (fun _ => true) 3 ⟨[]⟩
            registryABC "f1" "t.txt" []).2.2.1 "f1" = none := by
  decide

/-- Claim C3 (amended): for every NONEMPTY byte string C, uploading C
under a fresh file id and then retrieving that id — with at least one
target node whose store call succeeded and which is reachable at
retrieval time — yields content byte-identical to C, along with the
uploaded filename, size and checksum; the empty byte string is the one
exception (see the counterexample). -/
theorem roundtrip_nonempty_content
    (hash : Bytes → String) (storeOk reach : String → Bool) (now : Nat)
    (st : NodeStores) (db : Catalog) (fid fn : String) (content : Bytes)
    (hlen : num_replicas ≤ (get_active_nodes db).length)
    (hC : content ≠ [])
    (hffresh : ∀ f ∈ db.files, f.file_id ≠ fid)
    (hlfresh : ∀ l ∈ db.locations, l.file_id ≠ fid)
    (hnodup : (db.nodes.map (fun x => x.node_id)).Nodup)
    (hwin : ∃ n ∈ (get_active_nodes db).take num_replicas,
      storeOk n.url = true ∧ reach n.url = true) :
    retrieve_file reach
        (store_file hash storeOk now st db fid fn content).2.1
        (store_file hash storeOk now st db fid fn content).2.2.1 fid
      = some ⟨fn, content, content.length, hash content⟩ := by
  obtain ⟨n0, hn0T, hok0, hr0⟩ := hwin
  have hsome : ∃ n ∈ (get_active_nodes db).take num_replicas,
      storeOk n.url = true := ⟨n0, hn0T, hok0⟩
  rw [store_file_ok_shape hash storeOk now st db fid fn content hlen hsome]
  show retrieve_file reach
      (fanoutStore storeOk fid content
        ((get_active_nodes db).take num_replicas) st).2.1
      { db with
          files := db.files ++
            [⟨fid, fn, content.length, hash content, now, now, false⟩],
          locations := db.locations ++
            ((((get_active_nodes db).take num_replicas).filter
                (fun n => storeOk n.url)).map (fun n => n.node_id)).map
              (fun nid => ⟨fid, nid⟩) } fid
    = some ⟨fn, content, content.length, hash content⟩
  set targets := (get_active_nodes db).take num_replicas with hT
  set succ := (targets.filter (fun n => storeOk n.url)).map
      (fun n => n.node_id) with hS
  set rec : FileRec :=
    ⟨fid, fn, content.length, hash content, now, now, false⟩ with hrec
  set stN := (fanoutStore storeOk fid content targets st).2.1 with hstN
  set db1 : Catalog := { db with
      files := db.files ++ [rec],
      locations := db.locations ++ succ.map (fun nid => ⟨fid, nid⟩) }
    with hdb1
  have hrecfid : rec.file_id = fid := by rw [hrec]
  have hfind1 : db1.files.find?
      (fun f => f.file_id = fid ∧ f.is_deleted = false) = some rec := by
    rw [hdb1]
    show (db.files ++ [rec]).find?
        (fun f => f.file_id = fid ∧ f.is_deleted = false) = some rec
    rw [find?_append_of_none _ _ _
        (find?_eq_none_of_all _ _ (fun f hf => by simp [hffresh f hf]))]
    rw [List.find?_cons_of_pos _ (by rw [hrec]; simp)]
  have hfilter : db1.locations.filter (fun l => l.file_id = fid)
      = succ.map (fun nid => (⟨fid, nid⟩ : FileLocation)) := by
    rw [hdb1]
    show (db.locations ++
        succ.map (fun nid => (⟨fid, nid⟩ : FileLocation))).filter
          (fun l => l.file_id = fid)
        = succ.map (fun nid => (⟨fid, nid⟩ : FileLocation))
    rw [List.filter_append,
      List.filter_eq_nil_iff.mpr (fun l hl => by simp [hlfresh l hl]),
      List.nil_append]
    apply List.filter_eq_self.mpr
    intro a ha
    obtain ⟨nid, _, rfl⟩ := List.mem_map.mp ha
    simp
  have hsuccne : succ ≠ [] := by
    rw [hS]
    intro hc
    rw [List.map_eq_nil_iff, List.filter_eq_nil_iff] at hc
    exact (hc n0 hn0T) (by simp [hok0])
  have hkey : ∀ n : StorageNodeRec, n ∈ targets → storeOk n.url = true →
      hitValue reach stN db1 rec ⟨fid, n.node_id⟩
        = if reach n.url = true
          then some ⟨fn, content, content.length, hash content⟩
          else none := by
    intro n hnT hok
    have hnActive : n ∈ db.nodes ∧ n.is_active = true := by
      have hmem : n ∈ get_active_nodes db := List.take_subset _ _ hnT
      simp only [get_active_nodes] at hmem
      have := List.mem_filter.mp hmem
      exact ⟨this.1, by simpa using this.2⟩
    have hfindN : findActiveNode db1 n.node_id = some n := by
      rw [hdb1]
      show db.nodes.find? (fun x => x.node_id = n.node_id ∧ x.is_active)
        = some n
      exact find?_active_nodup db.nodes n hnodup hnActive.1 hnActive.2
    have hlook : stN.lookup n.url fid = some content := by
      rw [hstN, fanoutStore_lookup]
      rw [if_pos (List.any_eq_true.mpr ⟨n, hnT, by simp [hok]⟩)]
    by_cases hr : reach n.url = true
    · rw [if_pos hr]
      simp only [hitValue, hfindN, hr, if_true, ite_true, hrecfid, hlook]
      rw [if_neg (fun hc => hC (List.isEmpty_iff.mp hc))]
    · rw [if_neg hr]
      simp [hitValue, hfindN, hr]
  rw [retrieve_file_found reach stN db1 fid rec hfind1
    (by rw [hfilter]; intro hc;
        exact hsuccne (List.map_eq_nil_iff.mp hc)),
    hfilter]
  apply tryLocations_first_hit
  · intro loc hloc
    obtain ⟨nid, hnid, rfl⟩ := List.mem_map.mp hloc
    rw [hS] at hnid
    obtain ⟨n, hnf, rfl⟩ := List.mem_map.mp hnid
    have hmf := List.mem_filter.mp hnf
    rw [hkey n hmf.1 (by simpa using hmf.2)]
    by_cases hr : reach n.url = true
    · right
      rw [if_pos hr]
    · left
      rw [if_neg hr]
  · refine ⟨⟨fid, n0.node_id⟩, ?_, ?_⟩
    · apply List.mem_map.mpr
      refine ⟨n0.node_id, ?_, rfl⟩
      rw [hS]
      exact List.mem_map.mpr
        ⟨n0, List.mem_filter.mpr ⟨hn0T, by simp [hok0]⟩, rfl⟩
    · rw [hkey n0 hn0T hok0, if_pos hr0]

/-- Concrete instance of amended claim C3: a one-byte payload round-trips
through registry A, B, C. -/
theorem roundtrip_nonempty_content_witness :
    (([9] : Bytes).length = 1) ∧
      retrieve_file (fun _ => true)
          (store_file (fun b => toString b.length) (fun _ => true) 3 ⟨[]⟩
            registryABC "f1" "t.txt" [9]).2.1
          (store_file (fun b => toString b.length) (fun _ => true) 3 ⟨[]⟩
            registryABC "f1" "t.txt" [9]).2.2.1 "f1"
        = some ⟨"t.txt", [9], 1, "1"⟩ := by
  refine ⟨by decide, ?_⟩
  have h := roundtrip_nonempty_content (fun b => toString b.length)
      (fun _ => true) (fun _ => true) 3 ⟨[]⟩ registryABC "f1" "t.txt" [9]
      (by decide) (by decide) (by decide) (by decide) (by decide)
      ⟨nodeA, by decide, by decide, by decide⟩
  exact h.trans (by decide)

/-! ### Claim C4 -/

/-- Claim C4 counterexample: with the registry listing A (1 unit of
available capacity), B (5 available), C (9 available), all active,
store_file issues its store calls to A and B — the first two rows in
registry order — whereas the spec's best-first policy (more available
capacity first, lower response time as tie-break) selects C then B; the
two selections differ, so selection is not best-first. -/
theorem store_selection_not_best_first :
    storeCallUrls (store_file (fun b => toString b.length) (fun _ => true) 3
        ⟨[]⟩ registryABC "f1" "t.txt" [7]).2.2.2 = ["uA", "uB"] ∧
      (specBestFirstTargets (fun _ => 0) registryABC).map (fun n => n.url)
        = ["uC", "uB"] ∧
      (storeCallUrls (store_file (fun b => toString b.length)
            (fun _ => true) 3 ⟨[]⟩ registryABC "f1" "t.txt" [7]).2.2.2
          == (specBestFirstTargets (fun _ => 0) registryABC).map
              (fun n => n.url)) = false := by
  decide

/-- Claim C4 (amended): when at least two active nodes exist, store_file
sends its store calls to exactly the first two active nodes in the order
the registry query returns them, irrespective of available capacity or
response time. -/
theorem store_file_targets_first_two_active
    (hash : Bytes → String) (storeOk : String → Bool) (now : Nat)
    (st : NodeStores) (db : Catalog) (fid fn : String) (content : Bytes)
    (hlen : num_replicas ≤ (get_active_nodes db).length) :
    storeCallUrls (store_file hash storeOk now st db fid fn content).2.2.2
      = ((get_active_nodes db).take num_replicas).map (fun n => n.url) := by
  simp only [store_file]
  rw [if_neg (by omega : ¬((get_active_nodes db).length < num_replicas))]
  by_cases he : ((fanoutStore storeOk fid content
      ((get_active_nodes db).take num_replicas) st).1).isEmpty = true
  · rw [if_pos he]
    show storeCallUrls (fanoutStore storeOk fid content
        ((get_active_nodes db).take num_replicas) st).2.2 = _
    rw [fanoutStore_trace, storeCallUrls_map_nodes]
  · rw [if_neg he]
    show storeCallUrls ((fanoutStore storeOk fid content
        ((get_active_nodes db).take num_replicas) st).2.2
          ++ [Event.dbCommit]) = _
    rw [storeCallUrls_append_commit, fanoutStore_trace,
      storeCallUrls_map_nodes]

/-- Concrete instance of amended claim C4: with registry A, B, C the
calls go to A and B. -/
theorem store_file_targets_first_two_active_witness :
    (num_replicas ≤ (get_active_nodes registryABC).length) ∧
      storeCallUrls (store_file (fun b => toString b.length) (fun _ => true)
          3 ⟨[]⟩ registryABC "f2" "t.txt" [7]).2.2.2
        = ((get_active_nodes registryABC).take num_replicas).map
            (fun n => n.url) :=
  ⟨by decide,
    store_file_targets_first_two_active (fun b => toString b.length)
      (fun _ => true) 3 ⟨[]⟩ registryABC "f2" "t.txt" [7] (by decide)⟩

/-! ### Claim C5 -/

/-- Claim C5 counterexample: catalogDelete holds fileOne placed on active
node A and inactive node D. Running delete_file (every delete call
succeeding) yields the trace [sessionSetDeleted, deleteCall uA,
dbCommit]: the commit that makes the soft delete visible to other
sessions (listings/downloads read committed state) comes AFTER the
remote cleanup call, not before it, and the known placement on inactive
node D receives no delete call at all — yet the file has two known
placements. -/
theorem delete_commit_after_cleanup :
    (delete_file (fun _ => true) 5 storesDelete catalogDelete "f1").2.2.2
        = [Event.sessionSetDeleted "f1", Event.deleteCall "uA" "f1",
            Event.dbCommit] ∧
      commitBeforeFirstDeleteCall
          (delete_file (fun _ => true) 5 storesDelete catalogDelete
            "f1").2.2.2 = false ∧
      deleteCallUrls (delete_file (fun _ => true) 5 storesDelete
          catalogDelete "f1").2.2.2 = ["uA"] ∧
      catalogDelete.locations.map (fun l => l.node_id) = ["A", "D"] := by
  decide

/-- Claim C5 (amended): delete_file on an existing file sets the
soft-delete flag inside its session first, then issues best-effort
delete calls to the placements whose node is currently active (placements
on missing or inactive nodes are skipped), and commits last — the flag
becomes visible to listings/downloads only after remote cleanup, so
whenever at least one delete call is issued the commit does not precede
it. Nodes whose delete call fails are omitted from nodes_cleaned while
the operation still reports success, and the committed row carries
is_deleted = true (with a refreshed updated_at). -/
theorem delete_file_flag_then_cleanup_then_commit
    (delOk : String → Bool) (now : Nat) (st : NodeStores) (db : Catalog)
    (fid : String) (r : FileRec)
    (hfind : db.files.find? (fun f => f.file_id = fid) = some r) :
    (delete_file delOk now st db fid).1
        = Except.ok
            (((db.locations.filter (fun l => l.file_id = fid)).filter
                (fun loc =>
                  match findActiveNode db loc.node_id with
                  | some n => delOk n.url
                  | none => false)).map (fun loc => loc.node_id)) ∧
      (delete_file delOk now st db fid).2.2.2
        = Event.sessionSetDeleted fid ::
            (db.locations.filter (fun l => l.file_id = fid)).filterMap
              (fun loc => (findActiveNode db loc.node_id).map
                (fun n => Event.deleteCall n.url fid))
            ++ [Event.dbCommit] ∧
      (delete_file delOk now st db fid).2.2.1.files.find?
          (fun f => f.file_id = fid)
        = some { r with is_deleted := true, updated_at := now } ∧
      (deleteCallUrls (delete_file delOk now st db fid).2.2.2 ≠ [] →
        commitBeforeFirstDeleteCall
          (delete_file delOk now st db fid).2.2.2 = false) := by
  have hshape := delete_file_found_shape delOk now st db fid r hfind
  have hres : (delete_file delOk now st db fid).1
      = Except.ok
          (((db.locations.filter (fun l => l.file_id = fid)).filter
              (fun loc =>
                match findActiveNode db loc.node_id with
                | some n => delOk n.url
                | none => false)).map (fun loc => loc.node_id)) := by
    rw [hshape]
    show Except.ok (fanoutDelete delOk db fid
        (db.locations.filter (fun l => l.file_id = fid)) st).1 = _
    rw [fanoutDelete_cleaned]
  have htrace : (delete_file delOk now st db fid).2.2.2
      = Event.sessionSetDeleted fid ::
          (db.locations.filter (fun l => l.file_id = fid)).filterMap
            (fun loc => (findActiveNode db loc.node_id).map
              (fun n => Event.deleteCall n.url fid))
          ++ [Event.dbCommit] := by
    rw [hshape]
    show Event.sessionSetDeleted fid ::
        (fanoutDelete delOk db fid
          (db.locations.filter (fun l => l.file_id = fid)) st).2.2
          ++ [Event.dbCommit] = _
    rw [fanoutDelete_trace]
  have hfiles : (delete_file delOk now st db fid).2.2.1.files
      = setDeleted now fid db.files := by rw [hshape]
  refine ⟨hres, htrace, ?_, ?_⟩
  · rw [hfiles]
    show (db.files.map (fun f =>
        if f.file_id = fid then
          { f with is_deleted := true, updated_at := now }
        else f)).find? (fun f => f.file_id = fid)
      = some { r with is_deleted := true, updated_at := now }
    rw [find?_map_of_preserved _ _
      (fun f => by by_cases hc : f.file_id = fid <;> simp [hc]), hfind]
    have hr : r.file_id = fid := by simpa using List.find?_some hfind
    simp [hr]
  · intro hne
    rw [htrace] at hne ⊢
    cases hfm : (db.locations.filter (fun l => l.file_id = fid)).filterMap
        (fun loc => (findActiveNode db loc.node_id).map
          (fun n => Event.deleteCall n.url fid)) with
    | nil =>
        rw [hfm] at hne
        exact absurd rfl hne
    | cons e rest =>
        have he : e ∈ (db.locations.filter
            (fun l => l.file_id = fid)).filterMap
              (fun loc => (findActiveNode db loc.node_id).map
                (fun n => Event.deleteCall n.url fid)) := by
          rw [hfm]
          exact List.mem_cons_self e rest
        obtain ⟨loc, hloc, heq⟩ := List.mem_filterMap.mp he
        obtain ⟨n, hfn, heq2⟩ := Option.map_eq_some'.mp heq
        rw [← heq2]
        rfl

/-- Concrete instance of amended claim C5: with every delete call failing,
the operation still succeeds with an empty nodes_cleaned, the trace runs
session-flag, delete call to the active placement, then commit, and the
commit does not precede the cleanup. -/
theorem delete_file_flag_then_cleanup_then_commit_witness :
    (catalogDelete.files.find? (fun f => f.file_id = "f1")
        = some fileOne) ∧
      (delete_file (fun _ => false) 5 storesDelete catalogDelete "f1").1
        = Except.ok [] ∧
      (delete_file (fun _ => false) 5 storesDelete catalogDelete
          "f1").2.2.2
        = [Event.sessionSetDeleted "f1", Event.deleteCall "uA" "f1",
            Event.dbCommit] ∧
      commitBeforeFirstDeleteCall
          (delete_file (fun _ => false) 5 storesDelete catalogDelete
            "f1").2.2.2 = false ∧
      (delete_file (fun _ => false) 5 storesDelete catalogDelete
          "f1").2.2.1.files.find? (fun f => f.file_id = "f1")
        = some { fileOne with is_deleted := true, updated_at := 5 } := by
  have h := delete_file_flag_then_cleanup_then_commit (fun _ => false) 5
      storesDelete catalogDelete "f1" fileOne (by decide)
  exact ⟨by decide, h.1.trans (by decide), h.2.1.trans (by decide),
    h.2.2.2 (by decide), h.2.2.1⟩

/-! ### Claim C6 -/

/-- Claim C6 counterexample: deleting fileOne (stored with updated_at = 0)
at tick 5 rewrites the row's updated_at to 5 — the ORM onupdate hook and
the update_files_updated_at trigger refresh the timestamp on the UPDATE
that sets the flag — so a field other than the soft-delete flag does
change, refuting the frame part of the claim. -/
theorem delete_changes_updated_at :
    ((delete_file (fun _ => true) 5 storesDelete catalogDelete
        "f1").2.2.1.files.map (fun f => f.updated_at) = [5]) ∧
      catalogDelete.files.map (fun f => f.updated_at) = [0] ∧
      ((delete_file (fun _ => true) 5 storesDelete catalogDelete
            "f1").2.2.1.files.map (fun f => f.updated_at)
          == catalogDelete.files.map (fun f => f.updated_at)) = false := by
  decide

/-- Claim C6 (amended): after delete_file on a stored file, list_files no
longer includes the file id and retrieve_file on it returns none, while
the FileMetadata row persists with is_deleted = true and the FileLocation
rows are untouched; every field of the row other than the soft-delete
flag and the trigger-refreshed updated_at timestamp is unchanged, and
rows of other files are untouched (same row count, other rows kept
verbatim). -/
theorem delete_file_soft_delete_frame
    (delOk : String → Bool) (now : Nat) (st : NodeStores) (db : Catalog)
    (fid : String) (r : FileRec)
    (hfind : db.files.find? (fun f => f.file_id = fid) = some r) :
    (∀ e ∈ list_files (delete_file delOk now st db fid).2.2.1,
        e.file_id ≠ fid) ∧
      (∀ (reach : String → Bool) (st2 : NodeStores),
        retrieve_file reach st2 (delete_file delOk now st db fid).2.2.1 fid
          = none) ∧
      (delete_file delOk now st db fid).2.2.1.files.find?
          (fun f => f.file_id = fid)
        = some { r with is_deleted := true, updated_at := now } ∧
      (delete_file delOk now st db fid).2.2.1.locations = db.locations ∧
      (∀ f ∈ db.files, f.file_id ≠ fid →
        f ∈ (delete_file delOk now st db fid).2.2.1.files) ∧
      (delete_file delOk now st db fid).2.2.1.files.length
        = db.files.length := by
  have hshape := delete_file_found_shape delOk now st db fid r hfind
  have hfiles : (delete_file delOk now st db fid).2.2.1.files
      = setDeleted now fid db.files := by rw [hshape]
  have hlocs : (delete_file delOk now st db fid).2.2.1.locations
      = db.locations := by rw [hshape]
  refine ⟨?_, ?_, ?_, hlocs, ?_, ?_⟩
  · intro e he
    simp only [list_files, hfiles, setDeleted, List.mem_map,
      List.mem_filter] at he
    obtain ⟨f, ⟨hf, hdel⟩, rfl⟩ := he
    obtain ⟨f0, hf0, rfl⟩ := hf
    by_cases hc : f0.file_id = fid
    · rw [if_pos hc] at hdel
      simp at hdel
    · rw [if_neg hc]
      simpa using hc
  · intro reach2 st2
    have hnone : (delete_file delOk now st db fid).2.2.1.files.find?
        (fun f => f.file_id = fid ∧ f.is_deleted = false) = none := by
      rw [hfiles]
      apply find?_eq_none_of_all
      intro f hf
      simp only [setDeleted, List.mem_map] at hf
      obtain ⟨f0, hf0, rfl⟩ := hf
      by_cases hc : f0.file_id = fid
      · simp [hc]
      · simp [hc]
    simp only [retrieve_file, hnone]
  · rw [hfiles]
    show (db.files.map (fun f =>
        if f.file_id = fid then
          { f with is_deleted := true, updated_at := now }
        else f)).find? (fun f => f.file_id = fid)
      = some { r with is_deleted := true, updated_at := now }
    rw [find?_map_of_preserved _ _
      (fun f => by by_cases hc : f.file_id = fid <;> simp [hc]), hfind]
    have hr : r.file_id = fid := by simpa using List.find?_some hfind
    simp [hr]
  · intro f hf hne
    rw [hfiles]
    show f ∈ db.files.map (fun f =>
      if f.file_id = fid then
        { f with is_deleted := true, updated_at := now }
      else f)
    refine List.mem_map.mpr ⟨f, hf, ?_⟩
    rw [if_neg hne]
  · rw [hfiles]
    simp [setDeleted]

/-- Concrete instance of amended claim C6: after deleting fileOne its id
is gone from the listing and retrieval returns none, while the row
persists flagged and the locations survive. -/
theorem delete_file_soft_delete_frame_witness :
    (catalogDelete.files.find? (fun f => f.file_id = "f1")
        = some fileOne) ∧
      ((list_files (delete_file (fun _ => true) 5 storesDelete
          catalogDelete "f1").2.2.1).map (fun e => e.file_id) = []) ∧
      retrieve_file (fun _ => true) ⟨[]⟩
          (delete_file (fun _ => true) 5 storesDelete catalogDelete
            "f1").2.2.1 "f1" = none ∧
      (delete_file (fun _ => true) 5 storesDelete catalogDelete
          "f1").2.2.1.files.find? (fun f => f.file_id = "f1")
        = some { fileOne with is_deleted := true, updated_at := 5 } ∧
      (delete_file (fun _ => true) 5 storesDelete catalogDelete
          "f1").2.2.1.locations = catalogDelete.locations := by
  have h := delete_file_soft_delete_frame (fun _ => true) 5 storesDelete
      catalogDelete "f1" fileOne (by decide)
  exact ⟨by decide, by decide, h.2.1 (fun _ => true) ⟨[]⟩, h.2.2.1,
    h.2.2.2.1⟩

/-! ### Claim C7 -/

/-- Claim C7: a heartbeat for a known node id answers 200, sets the node
active and refreshes its last_heartbeat, leaving every other node row in
place; a heartbeat for an unknown node id answers 404 with the catalog
unchanged — no node record is created. -/
theorem heartbeat_known_refreshes_unknown_not_found
    (now : Nat) (db : Catalog) (nid : String) :
    (∀ n : StorageNodeRec,
        db.nodes.find? (fun m => m.node_id = nid) = some n →
          (node_heartbeat now db (some nid)).1
              = ⟨200, [("status", "heartbeat_received"), ("node_id", nid)]⟩
            ∧ (node_heartbeat now db (some nid)).2.nodes.find?
                  (fun m => m.node_id = nid)
                = some { n with last_heartbeat := now, is_active := true }
            ∧ ∀ m ∈ db.nodes, m.node_id ≠ nid →
                m ∈ (node_heartbeat now db (some nid)).2.nodes) ∧
      ((∀ n ∈ db.nodes, n.node_id ≠ nid) →
        node_heartbeat now db (some nid)
          = (⟨404, [("detail", "Node not found")]⟩, db)) := by
  constructor
  · intro n hn
    have hupd : update_node_heartbeat now db nid
        = (true,
            { db with nodes := db.nodes.map (fun m =>
                if m.node_id = nid then
                  { m with last_heartbeat := now, is_active := true }
                else m) }) := by
      unfold update_node_heartbeat
      rw [hn]
    have hresp : node_heartbeat now db (some nid)
        = (⟨200, [("status", "heartbeat_received"), ("node_id", nid)]⟩,
            { db with nodes := db.nodes.map (fun m =>
                if m.node_id = nid then
                  { m with last_heartbeat := now, is_active := true }
                else m) }) := by
      simp only [node_heartbeat]
      rw [hupd]
      rfl
    refine ⟨by rw [hresp], ?_, ?_⟩
    · rw [hresp]
      have hpres : ∀ m : StorageNodeRec,
          (decide ((if m.node_id = nid then
              { m with last_heartbeat := now, is_active := true }
            else m).node_id = nid)) = decide (m.node_id = nid) := by
        intro m
        by_cases hm : m.node_id = nid <;> simp [hm]
      rw [find?_map_of_preserved _ _ hpres, hn]
      have hnid : n.node_id = nid := by
        have := List.find?_some hn
        simpa using this
      simp [hnid]
    · intro m hm hne
      rw [hresp]
      refine List.mem_map.mpr ⟨m, hm, ?_⟩
      simp [hne]
  · intro h
    have hupd : update_node_heartbeat now db nid = (false, db) := by
      unfold update_node_heartbeat
      rw [find?_eq_none_of_all _ _ (fun x hx => by simp [h x hx])]
    simp only [node_heartbeat]
    rw [hupd]
    rfl

/-- Concrete instance of claim C7: a registry with node "A"; a heartbeat
for "A" succeeds and one for "Z" is answered 404 on the unchanged
catalog. -/
theorem heartbeat_known_refreshes_unknown_not_found_witness :
    ((Catalog.mk [] [] [⟨"A", "uA", 10, 0, false, 0⟩]).nodes.find?
        (fun m => m.node_id = "A") = some ⟨"A", "uA", 10, 0, false, 0⟩) ∧
      (node_heartbeat 9 ⟨[], [], [⟨"A", "uA", 10, 0, false, 0⟩]⟩
          (some "A")).1
        = ⟨200, [("status", "heartbeat_received"), ("node_id", "A")]⟩ ∧
      node_heartbeat 9 ⟨[], [], [⟨"A", "uA", 10, 0, false, 0⟩]⟩ (some "Z")
        = (⟨404, [("detail", "Node not found")]⟩,
            ⟨[], [], [⟨"A", "uA", 10, 0, false, 0⟩]⟩) := by
  refine ⟨by decide, ?_, ?_⟩
  · exact ((heartbeat_known_refreshes_unknown_not_found 9
      ⟨[], [], [⟨"A", "uA", 10, 0, false, 0⟩]⟩ "A").1
      ⟨"A", "uA", 10, 0, false, 0⟩ (by decide)).1
  · exact (heartbeat_known_refreshes_unknown_not_found 9
      ⟨[], [], [⟨"A", "uA", 10, 0, false, 0⟩]⟩ "Z").2 (by decide)

/-! ### Claim C9 -/

theorem bumpCounters_response_times (m : AgentMetrics) (op : String) :
    (bumpCounters m op).response_times = m.response_times := by
  unfold bumpCounters
  by_cases h1 : op = "upload" <;> simp only [h1, if_pos, if_neg, ite_true,
    ite_false, reduceIte]
  by_cases h2 : op = "download" <;> simp [h2]
  by_cases h3 : op = "delete" <;> simp [h3]

theorem lastN_length_le {α : Type} (n : Nat) (l : List α) :
    (lastN n l).length ≤ n := by
  unfold lastN
  rw [List.length_drop]
  omega

/-- Claim C9: record_operation keeps the response-time window at no more
than 100 samples — after any call the window is exactly the most recent
100 (or fewer) samples — and the reported avg_response_time_ms is the
arithmetic mean of that window (its product with the window length is the
window sum, and it is 0 on an empty window). -/
theorem response_time_window_bounded
    (m : AgentMetrics) (op : String) (rt : ℚ)
    (h : m.response_times.length ≤ 100) :
    (record_operation m op rt).response_times.length ≤ 100 ∧
      (record_operation m op rt).response_times
        = lastN 100 (m.response_times ++ if rt > 0 then [rt] else []) ∧
      avg_response_time_ms (record_operation m op rt)
          * ((record_operation m op rt).response_times.length : ℚ)
        = (record_operation m op rt).response_times.sum ∧
      ((record_operation m op rt).response_times.isEmpty = true →
        avg_response_time_ms (record_operation m op rt) = 0) := by
  have hwin : (record_operation m op rt).response_times
      = lastN 100 (m.response_times ++ if rt > 0 then [rt] else []) := by
    unfold record_operation
    by_cases hrt : rt > 0
    · simp only [if_pos hrt, bumpCounters_response_times]
      by_cases hlong : (m.response_times ++ [rt]).length > 100
      · rw [if_pos hlong]
        rfl
      · rw [if_neg hlong]
        unfold lastN
        have h0 : (m.response_times ++ [rt]).length - 100 = 0 := by omega
        rw [h0, List.drop_zero]
    · simp only [if_neg hrt, bumpCounters_response_times]
      unfold lastN
      have h0 : (m.response_times ++ ([] : List ℚ)).length - 100 = 0 := by
        simp
        omega
      rw [h0, List.drop_zero, List.append_nil]
  have havg : avg_response_time_ms (record_operation m op rt)
      * ((record_operation m op rt).response_times.length : ℚ)
      = (record_operation m op rt).response_times.sum := by
    unfold avg_response_time_ms
    by_cases he : (record_operation m op rt).response_times.isEmpty
    · rw [if_pos he]
      have : (record_operation m op rt).response_times = [] :=
        List.isEmpty_iff.mp he
      simp [this]
    · rw [if_neg he]
      have hne : (record_operation m op rt).response_times ≠ [] := by
        simpa [List.isEmpty_iff] using he
      have hpos : 0 < (record_operation m op rt).response_times.length :=
        List.length_pos.mpr hne
      have hlen : ((record_operation m op rt).response_times.length : ℚ)
          ≠ 0 := Nat.cast_ne_zero.mpr (by omega)
      exact div_mul_cancel₀ _ hlen
  refine ⟨?_, hwin, havg, ?_⟩
  · rw [hwin]
    exact lastN_length_le 100 _
  · intro he
    unfold avg_response_time_ms
    rw [if_pos he]

/-- Concrete instance of claim C9: a two-sample window receiving a third
sample. -/
theorem response_time_window_bounded_witness :
    ((⟨0, 0, 0, [1, 2]⟩ : AgentMetrics).response_times.length ≤ 100) ∧
      ((record_operation ⟨0, 0, 0, [1, 2]⟩ "upload" 3).response_times.length
          ≤ 100 ∧
        (record_operation ⟨0, 0, 0, [1, 2]⟩ "upload" 3).response_times
          = lastN 100 ((⟨0, 0, 0, [1, 2]⟩ : AgentMetrics).response_times ++
              if (3 : ℚ) > 0 then [3] else []) ∧
        avg_response_time_ms (record_operation ⟨0, 0, 0, [1, 2]⟩ "upload" 3)
            * (((record_operation ⟨0, 0, 0, [1, 2]⟩ "upload"
                3).response_times.length : ℚ))
          = (record_operation ⟨0, 0, 0, [1, 2]⟩ "upload"
              3).response_times.sum) := by
  have h := response_time_window_bounded ⟨0, 0, 0, [1, 2]⟩ "upload" 3
    (by norm_num)
  exact ⟨by norm_num, h.1, h.2.1, h.2.2.1⟩

/-! ### Claim C10 -/

/-- Claim C10: the node-registration endpoint answers status "registered"
with the supplied node id regardless of whether the underlying
register_node upsert succeeded; in particular register_node can return
False (rolled-back database write) and the response is identical to the
success response. -/
theorem register_endpoint_always_registered
    (dbOk : Bool) (now : Nat) (db : Catalog) (nid url : String)
    (cap : Int) :
    (register_storage_node dbOk now db nid url cap).1
        = ⟨200, [("status", "registered"), ("node_id", nid)]⟩ ∧
      (register_node false now db nid url cap).1 = false ∧
      (register_storage_node false now db nid url cap).1
        = (register_storage_node true now db nid url cap).1 :=
  ⟨rfl, rfl, rfl⟩

end DFS
